import Mathlib

/-!
Verification of the EventStream repository's natural-language specification
against a shallow embedding of its Python source.

Each section embeds one area of the source code:

* payload decoding (`event_stream/utilities/common.py`: `interpret_value`,
  `json_to_dict_or_list`, `decode_stream_message`),
* the message mapping interface and serialization
  (`event_stream/messages/base.py`),
* the weighted variant registry (`event_stream/messages/__init__.py`),
* the re-entrant lock (`event_stream/utilities/communication.py`:
  `LuaSafeLock`),
* the consumer read loop (`read_from_stream`, `get_dead_messages`,
  `get_messages_from_inbox`, `get_idle_messages`),
* listener dispatch (`event_stream/streams/bus.py`,
  `event_stream/streams/handlers.py`, `event_stream/handlers/master.py`).

Machine integers do not overflow in the modelled paths, so Python integers
are embedded as `Int`/`Nat`; Python floats only occur here as exact decimal
literals, embedded as `Rat`; `math.nan`/`math.inf` are embedded as symbolic
sentinels, which the modelled code never computes with.
-/

set_option maxHeartbeats 1000000
set_option maxRecDepth 4000

namespace EventStream

/--
The universe of Python runtime values that flow through the event-stream
payload paths: byte strings, text strings, ints, decimal floats, bools,
the `math.nan`/`math.inf`/`-math.inf` sentinels, `None`, lists and
string-keyed dicts.  `vBytes s` stands for a Python `bytes` object whose
UTF-8 decoding is `s`.
-/
inductive Value where
  | vBytes (s : String)
  | vStr (s : String)
  | vInt (n : Int)
  | vFloat (q : Rat)
  | vBool (b : Bool)
  | vNaN
  | vInf
  | vNegInf
  | vNull
  | vList (xs : List Value)
  | vDict (entries : List (String × Value))

/-- Whitespace characters recognised by `str.strip` and the JSON scanner. -/
def isWsChar (c : Char) : Bool :=
  c = ' ' || c = '\t' || c = '\n' || c = '\r'

/-- Drop leading whitespace, as the JSON scanner does between tokens. -/
def skipWs (cs : List Char) : List Char :=
  cs.dropWhile isWsChar

/-- Python `str.strip()` on a character list: drop whitespace on both ends. -/
def stripChars (cs : List Char) : List Char :=
  ((cs.dropWhile isWsChar).reverse.dropWhile isWsChar).reverse

/-- The regular expression `^-?\d+$` from `constants.INTEGER_PATTERN`. -/
def isIntegerChars : List Char → Bool
  | [] => false
  | '-' :: rest => rest ≠ [] && rest.all Char.isDigit
  | cs => cs.all Char.isDigit

/-- Numeric value of a digit run, most significant digit first. -/
def parseNatDigits (cs : List Char) : Nat :=
  cs.foldl (fun a c => a * 10 + (c.toNat - 48)) 0

/-- Python `int(s)` for a string matching `INTEGER_PATTERN`. -/
def parseIntegerChars : List Char → Int
  | '-' :: rest => -(parseNatDigits rest : Int)
  | cs => (parseNatDigits cs : Int)

/-- The regular expression `^-?\d+\.\d*$` from `constants.FLOATING_POINT_PATTERN`. -/
def isFloatingChars (cs : List Char) : Bool :=
  let body := match cs with
    | '-' :: rest => rest
    | _ => cs
  let ip := body.takeWhile Char.isDigit
  ip ≠ [] &&
    match body.drop ip.length with
    | '.' :: frac => frac.all Char.isDigit
    | _ => false

/--
Python `float(s)` for a string matching `FLOATING_POINT_PATTERN`, as the
exact decimal rational it denotes.
-/
def parseFloatChars (cs : List Char) : Rat :=
  let neg := match cs with
    | '-' :: _ => true
    | _ => false
  let body := match cs with
    | '-' :: rest => rest
    | _ => cs
  let ip := body.takeWhile Char.isDigit
  let frac := match body.drop ip.length with
    | '.' :: fr => fr.takeWhile Char.isDigit
    | _ => []
  let magnitude : Rat :=
    (parseNatDigits ip : Rat) + (parseNatDigits frac : Rat) / (10 : Rat) ^ frac.length
  if neg then -magnitude else magnitude

/--
Scanner for a JSON string body, entered after the opening quote; returns the
unescaped content and the input remaining after the closing quote.
-/
def parseJsonString : Nat → List Char → Option (List Char × List Char)
  | 0, _ => none
  | _ + 1, [] => none
  | fuel + 1, c :: rest =>
    if c = '"' then some ([], rest)
    else if c = '\\' then
      match rest with
      | [] => none
      | e :: rest2 =>
        let decoded := if e = 'n' then '\n' else if e = 't' then '\t' else if e = 'r' then '\r' else e
        match parseJsonString fuel rest2 with
        | some (content, rem) => some (decoded :: content, rem)
        | none => none
    else
      match parseJsonString fuel rest with
      | some (content, rem) => some (c :: content, rem)
      | none => none

/--
A JSON number (sign, integer part, optional fraction, optional exponent),
following `json.loads`: ints decode to Python ints, anything with a fraction
or exponent decodes to a float.
-/
def mkJsonNumber (neg : Bool) (ip frac : List Char) (hasExp eneg : Bool) (ed : List Char) : Value :=
  if frac = [] && !hasExp then
    Value.vInt (if neg then -(parseNatDigits ip : Int) else (parseNatDigits ip : Int))
  else
    let base : Rat := (parseNatDigits ip : Rat) + (parseNatDigits frac : Rat) / (10 : Rat) ^ frac.length
    let scaled : Rat :=
      if hasExp then
        if eneg then base / (10 : Rat) ^ parseNatDigits ed else base * (10 : Rat) ^ parseNatDigits ed
      else base
    Value.vFloat (if neg then -scaled else scaled)

/-- Exponent suffix of a JSON number, if present. -/
def parseJsonNumberExp (neg : Bool) (ip frac : List Char) (hasFrac : Bool) :
    List Char → Option (Value × List Char)
  | e :: r =>
    if e = 'e' || e = 'E' then
      let eneg := match r with
        | '-' :: _ => true
        | _ => false
      let r2 := match r with
        | '-' :: rr => rr
        | '+' :: rr => rr
        | _ => r
      let ed := r2.takeWhile Char.isDigit
      if ed = [] then none
      else some (mkJsonNumber neg ip frac true eneg ed, r2.drop ed.length)
    else some (mkJsonNumber neg ip frac hasFrac false [], e :: r)
  | [] => some (mkJsonNumber neg ip frac hasFrac false [], [])

/-- A JSON number literal starting at the head of the input. -/
def parseJsonNumber (cs : List Char) : Option (Value × List Char) :=
  let neg := match cs with
    | '-' :: _ => true
    | _ => false
  let body := match cs with
    | '-' :: rest => rest
    | _ => cs
  let ip := body.takeWhile Char.isDigit
  if ip = [] then none
  else
    match body.drop ip.length with
    | '.' :: r =>
      let frac := r.takeWhile Char.isDigit
      if frac = [] then none
      else parseJsonNumberExp neg ip frac true (r.drop frac.length)
    | rest1 => parseJsonNumberExp neg ip [] false rest1

mutual

/-- Recursive-descent JSON value parser (the fragment `json.loads` accepts). -/
def parseJsonValue : Nat → List Char → Option (Value × List Char)
  | 0, _ => none
  | fuel + 1, cs =>
    match skipWs cs with
    | '{' :: rest =>
      (match skipWs rest with
       | '}' :: rem => some (.vDict [], rem)
       | _ =>
         match parseJsonMembers fuel rest with
         | some (entries, rem) => some (.vDict entries, rem)
         | none => none)
    | '[' :: rest =>
      (match skipWs rest with
       | ']' :: rem => some (.vList [], rem)
       | _ =>
         match parseJsonItems fuel rest with
         | some (xs, rem) => some (.vList xs, rem)
         | none => none)
    | '"' :: rest =>
      (match parseJsonString (rest.length + 1) rest with
       | some (content, rem) => some (.vStr ⟨content⟩, rem)
       | none => none)
    | 't' :: 'r' :: 'u' :: 'e' :: rest => some (.vBool true, rest)
    | 'f' :: 'a' :: 'l' :: 's' :: 'e' :: rest => some (.vBool false, rest)
    | 'n' :: 'u' :: 'l' :: 'l' :: rest => some (.vNull, rest)
    | other => parseJsonNumber other

/-- The members of a JSON object, entered after the opening brace. -/
def parseJsonMembers : Nat → List Char → Option (List (String × Value) × List Char)
  | 0, _ => none
  | fuel + 1, cs =>
    match skipWs cs with
    | '"' :: rest =>
      (match parseJsonString (rest.length + 1) rest with
       | some (key, rem) =>
         (match skipWs rem with
          | ':' :: rem2 =>
            (match parseJsonValue fuel rem2 with
             | some (v, rem3) =>
               (match skipWs rem3 with
                | ',' :: rem4 =>
                  (match parseJsonMembers fuel rem4 with
                   | some (entries, rem5) => some ((⟨key⟩, v) :: entries, rem5)
                   | none => none)
                | '}' :: rem4 => some ([(⟨key⟩, v)], rem4)
                | _ => none)
             | none => none)
          | _ => none)
       | none => none)
    | _ => none

/-- The items of a JSON array, entered after the opening bracket. -/
def parseJsonItems : Nat → List Char → Option (List Value × List Char)
  | 0, _ => none
  | fuel + 1, cs =>
    match parseJsonValue fuel cs with
    | some (v, rem) =>
      (match skipWs rem with
       | ',' :: rem2 =>
         (match parseJsonItems fuel rem2 with
          | some (xs, rem3) => some (v :: xs, rem3)
          | none => none)
       | ']' :: rem2 => some ([v], rem2)
       | _ => none)
    | none => none

end

/--
Embedding of `common.json_to_dict_or_list`: strip the string; unless it is
bracketed as a JSON array or object, return `none`; otherwise parse it,
yielding a dict or a list exactly when the whole string is valid JSON.
-/
def jsonToDictOrList (s : String) : Option Value :=
  let cs := stripChars s.data
  let bracketed :=
    (cs.head? = some '[' && cs.getLast? = some ']') ||
      (cs.head? = some '{' && cs.getLast? = some '}')
  if bracketed then
    match parseJsonValue (cs.length + 1) cs with
    | some (v, rest) =>
      if skipWs rest = [] then
        match v with
        | .vDict d => some (.vDict d)
        | .vList l => some (.vList l)
        | _ => none
      else none
    | none => none
  else none

/--
Python truthiness of the result of `json_to_dict_or_list` as used by the
`if not data` check in `interpret_value`: empty dicts and lists are falsy.
-/
def jsonResultFalsy : Value → Bool
  | .vDict [] => true
  | .vList [] => true
  | _ => false

/-- Lower-casing, for the case-insensitive keyword tests in `interpret_value`. -/
def lowerChars (cs : List Char) : List Char :=
  cs.map Char.toLower

/--
The string arm of `common.interpret_value`: integer pattern, float pattern,
`true`/`false`, `nan`, `inf`/`infinity`, `-inf`/`-infinity`, the `None`
keywords, then JSON (falsy JSON results fall back to the raw string), and
finally the raw string itself.
-/
def interpretString (s : String) : Value :=
  if isIntegerChars s.data then .vInt (parseIntegerChars s.data)
  else if isFloatingChars s.data then .vFloat (parseFloatChars s.data)
  else if lowerChars s.data = "true".data then .vBool true
  else if lowerChars s.data = "false".data then .vBool false
  else if lowerChars s.data = "nan".data then .vNaN
  else if lowerChars s.data = "inf".data || lowerChars s.data = "infinity".data then .vInf
  else if lowerChars s.data = "-inf".data || lowerChars s.data = "-infinity".data then .vNegInf
  else if s = "None" || s = "Null" || s = "null" || s = "nil" then .vNull
  else
    match jsonToDictOrList s with
    | some v => if jsonResultFalsy v then .vStr s else v
    | none => .vStr s

mutual

/--
Embedding of `common.interpret_value`: bytes are decoded to text and coerced
like strings; dict values and iterable elements are coerced recursively;
every other value is returned unchanged.
-/
def interpretValue : Value → Value
  | .vBytes s => interpretString s
  | .vStr s => interpretString s
  | .vDict entries => .vDict (interpretEntries entries)
  | .vList xs => .vList (interpretList xs)
  | .vInt n => .vInt n
  | .vFloat q => .vFloat q
  | .vBool b => .vBool b
  | .vNaN => .vNaN
  | .vInf => .vInf
  | .vNegInf => .vNegInf
  | .vNull => .vNull

/-- The dict comprehension inside `interpret_value`. -/
def interpretEntries : List (String × Value) → List (String × Value)
  | [] => []
  | (k, v) :: rest => (k, interpretValue v) :: interpretEntries rest

/-- The list comprehension inside `interpret_value`. -/
def interpretList : List Value → List Value
  | [] => []
  | v :: rest => interpretValue v :: interpretList rest

end

/-- Whether a value is a structured (dict or list) value. -/
def isStructured : Value → Bool
  | .vDict _ => true
  | .vList _ => true
  | _ => false

/-- The value stored under the first key of a dict, when there is one. -/
def firstDictValue : Value → Option Value
  | .vDict ((_, v) :: _) => some v
  | _ => none

/-- The raw string form of the JSON object whose single member maps key a to the string 1. -/
def jsonObjectLiteral : String :=
  String.mk ['{', '"', 'a', '"', ':', ' ', '"', '1', '"', '}']

lemma jsonToDictOrList_structured {s : String} {v : Value}
    (h : jsonToDictOrList s = some v) : isStructured v = true := by
  simp only [jsonToDictOrList] at h
  split at h
  · split at h
    · split at h
      · split at h
        · rw [Option.some.injEq] at h
          subst h
          rfl
        · rw [Option.some.injEq] at h
          subst h
          rfl
        · cases h
      · exact absurd h (by simp)
    · exact absurd h (by simp)
  · exact absurd h (by simp)

lemma interpretValue_interpretString (s : String)
    (h : isStructured (interpretString s) = false) :
    interpretValue (interpretString s) = interpretString s := by
  by_cases h1 : isIntegerChars s.data
  · simp [interpretString, h1, interpretValue]
  by_cases h2 : isFloatingChars s.data
  · simp [interpretString, h1, h2, interpretValue]
  by_cases h3 : lowerChars s.data = "true".data
  · simp [interpretString, h1, h2, h3, interpretValue]
  by_cases h4 : lowerChars s.data = "false".data
  · simp [interpretString, h1, h2, h3, h4, interpretValue]
  by_cases h5 : lowerChars s.data = "nan".data
  · simp [interpretString, h1, h2, h3, h4, h5, interpretValue]
  by_cases h6 : lowerChars s.data = "inf".data ∨ lowerChars s.data = "infinity".data
  · simp [interpretString, h1, h2, h3, h4, h5, h6, interpretValue]
  by_cases h7 : lowerChars s.data = "-inf".data ∨ lowerChars s.data = "-infinity".data
  · simp [interpretString, h1, h2, h3, h4, h5, h6, h7, interpretValue]
  by_cases h8 : ((s = "None" ∨ s = "Null") ∨ s = "null") ∨ s = "nil"
  · simp [interpretString, h1, h2, h3, h4, h5, h6, h7, h8, interpretValue]
  cases hj : jsonToDictOrList s with
  | none =>
    simp [interpretValue, interpretString, h1, h2, h3, h4, h5, h6, h7, h8, hj]
  | some w =>
    cases hf : jsonResultFalsy w with
    | true =>
      simp [interpretValue, interpretString, h1, h2, h3, h4, h5, h6, h7, h8, hj, hf]
    | false =>
      exfalso
      have hres : interpretString s = w := by
        simp [interpretString, h1, h2, h3, h4, h5, h6, h7, h8, hj, hf]
      rw [hres] at h
      rw [jsonToDictOrList_structured hj] at h
      exact Bool.noConfusion h

/--
Claim C9, counterexample: payload decoding is not idempotent.  Decoding the
raw JSON object string whose single member maps key a to the *string* 1
yields a dict whose inner value is the string 1 (the JSON branch of
`interpret_value` does not coerce nested values), but applying the decode
coercion to that already-decoded dict coerces the inner string to the
*integer* 1, so re-decoding an already-decoded value changes it.
-/
theorem decode_not_idempotent_counterexample :
    interpretValue (interpretValue (Value.vStr jsonObjectLiteral)) ≠
      interpretValue (Value.vStr jsonObjectLiteral) := by
  intro h
  have h1 : interpretValue (Value.vStr jsonObjectLiteral) =
      Value.vDict [("a", Value.vStr "1")] := rfl
  have h2 : interpretValue (Value.vDict [("a", Value.vStr "1")]) =
      Value.vDict [("a", Value.vInt 1)] := rfl
  rw [h1, h2] at h
  have h3 := congrArg firstDictValue h
  simp only [firstDictValue, Option.some.injEq] at h3
  exact Value.noConfusion h3

/--
Claim C9, amended: payload decoding is idempotent on every scalar value
category (bytes, integer strings, float strings, boolean strings, sentinel
strings and raw strings) — whenever decoding does not produce a structured
(dict or list) value, applying the decode coercion to the already-decoded
value yields the same result.  For JSON object/array strings a second decode
may further coerce nested string leaves, as the counterexample shows.
-/
theorem decode_idempotent_on_scalars (v : Value)
    (h : isStructured (interpretValue v) = false) :
    interpretValue (interpretValue v) = interpretValue v := by
  cases v with
  | vBytes s => exact interpretValue_interpretString s h
  | vStr s => exact interpretValue_interpretString s h
  | vDict entries => simp [interpretValue, isStructured] at h
  | vList xs => simp [interpretValue, isStructured] at h
  | vInt n => rfl
  | vFloat q => rfl
  | vBool b => rfl
  | vNaN => rfl
  | vInf => rfl
  | vNegInf => rfl
  | vNull => rfl

/-- Witness for `decode_idempotent_on_scalars` at the boolean string true. -/
theorem decode_idempotent_on_scalars_witness :
    isStructured (interpretValue (Value.vStr "true")) = false ∧
      interpretValue (interpretValue (Value.vStr "true")) = interpretValue (Value.vStr "true") :=
  ⟨rfl, decode_idempotent_on_scalars (Value.vStr "true") rfl⟩

/-!
## The message mapping interface

Embeds the dict-like surface of `Message` in `event_stream/messages/base.py`:
`__init__` routes constructor keywords that are not declared fields into the
private extra-data dict; `keys`/`values`/`items` list the extra data first and
the declared fields second; `__getitem__` with an `int` indexes
`list(self.values())`; `__setitem__` only accepts declared fields or keys
already present in the extra data; `send` flattens extra data and non-`None`
fields into the wire payload.
-/

/--
A constructed `Message`: the declared pydantic fields, in declaration order,
each with its current value (`vNull` embeds Python `None`), plus the private
extra-data mapping in insertion order.
-/
structure PyMessage where
  fields : List (String × Value)
  extra : List (String × Value)

/-- The names of the declared fields (`self.__fields__` key order). -/
def fieldNames (m : PyMessage) : List String :=
  m.fields.map Prod.fst

/--
Declared field names of the base `Message` envelope with the defaults pydantic
supplies when a key is missing (`None` for every optional field; `event` has
no default, but parsing only reaches construction when it is present).
-/
def envelopeDecl : List (String × Value) :=
  [("event", Value.vNull), ("message_id", Value.vNull), ("header", Value.vNull),
   ("application_name", Value.vNull), ("application_instance", Value.vNull),
   ("response_to", Value.vNull), ("workflow_id", Value.vNull)]

/-- The declared field names of the base envelope. -/
def envelopeFields : List String :=
  envelopeDecl.map Prod.fst

/--
Construction of a message of a class with declared field spec `decl`
(name and missing-key default) from payload `p`: each declared field takes
the payload value when present (pydantic keeps an explicit `null` as `None`)
and its default otherwise; every payload key that is not a declared field is
captured verbatim in the extra data (`Message.__init__`).
-/
def parseAs (decl : List (String × Value)) (p : List (String × Value)) : PyMessage :=
  { fields := decl.map (fun fd => (fd.1, (p.lookup fd.1).getD fd.2))
    extra := p.filter (fun kv => decide (kv.1 ∉ decl.map Prod.fst)) }

/-- `Message.keys`: extra keys that are not field names, then the field names. -/
def msgKeys (m : PyMessage) : List String :=
  (m.extra.map Prod.fst).filter (fun k => decide (k ∉ fieldNames m)) ++ fieldNames m

/-- `Message.values`: extra values whose key is not a field name, then the field values. -/
def msgValues (m : PyMessage) : List Value :=
  (m.extra.filter (fun kv => decide (kv.1 ∉ fieldNames m))).map Prod.snd ++ m.fields.map Prod.snd

/-- `Message.items`: extra items whose key is not a field name, then the field items. -/
def msgItems (m : PyMessage) : List (String × Value) :=
  m.extra.filter (fun kv => decide (kv.1 ∉ fieldNames m)) ++ m.fields

/--
`Message.__getitem__` with an `int` key: index into `list(self.values())`
with Python list semantics (negative indices count from the end, anything
out of range raises `IndexError`).
-/
def getItemInt (m : PyMessage) (i : Int) : Except String Value :=
  let vs := msgValues m
  let j := if i < 0 then i + vs.length else i
  if 0 ≤ j then
    match vs.get? j.toNat with
    | some v => .ok v
    | none => .error "IndexError"
  else .error "IndexError"

/--
`Message.__setitem__`: assign through a declared field, or overwrite a key
already present in the extra data; any other key raises `KeyError` before
anything is modified.
-/
def setItem (m : PyMessage) (k : String) (v : Value) : Except String PyMessage :=
  if k ∈ fieldNames m then
    .ok { m with fields := m.fields.map (fun kv => if kv.1 = k then (kv.1, v) else kv) }
  else if k ∉ m.extra.map Prod.fst then
    .error "KeyError"
  else
    .ok { m with extra := m.extra.map (fun kv => if kv.1 = k then (kv.1, v) else kv) }

lemma map_fst_filter_key (F : List String) (l : List (String × Value)) :
    (l.filter (fun kv => !decide (kv.1 ∈ F))).map Prod.fst =
      (l.map Prod.fst).filter (fun k => !decide (k ∈ F)) := by
  induction l with
  | nil => rfl
  | cons kv rest ih => by_cases h : kv.1 ∈ F <;> simp [h, ih]

/-- A message built by a bus listener from a generic payload with one extra key. -/
def exampleBusMessage : PyMessage :=
  parseAs envelopeDecl [("event", Value.vStr "generic"), ("hoopla", Value.vStr "HOOPLA")]

/--
Claim C8, counterexample: the mapping interface of `Message` iterates the
extra data *first* and the declared fields *second*, not declared first.  On
a message parsed from a payload with the single extra key hoopla, `keys()`
starts with hoopla and integer index 0 addresses the extra value, while the
claimed declared-first-then-extra order would start with the declared
envelope fields.
-/
theorem message_order_counterexample :
    msgKeys exampleBusMessage = "hoopla" :: envelopeFields ∧
      getItemInt exampleBusMessage 0 = .ok (Value.vStr "HOOPLA") ∧
      msgKeys exampleBusMessage ≠ envelopeFields ++ ["hoopla"] :=
  ⟨by decide, rfl, by decide⟩

/--
Claim C8, amended: integer indexing and `keys`/`values`/`items` all address
the union of declared fields and extra fields in the *extra-first,
declared-second* order: `items` pairs up exactly `keys` with `values`, and
indexing with an in-range integer returns the corresponding element of
`values` in that shared order.
-/
theorem message_iteration_order (m : PyMessage) :
    (msgItems m).map Prod.fst = msgKeys m ∧
      (msgItems m).map Prod.snd = msgValues m ∧
      ∀ i : Nat, (h : i < (msgValues m).length) →
        getItemInt m i = .ok ((msgValues m).get ⟨i, h⟩) := by
  refine ⟨?_, ?_, ?_⟩
  · simp [msgItems, msgKeys, fieldNames, map_fst_filter_key]
  · simp [msgItems, msgValues]
  · intro i h
    simp only [getItemInt]
    have h0 : ¬((i : Int) < 0) := by omega
    rw [if_neg h0, if_pos (by omega : (0 : Int) ≤ (i : Int))]
    have ht : ((i : Int)).toNat = i := Int.toNat_natCast i
    rw [ht, List.get?_eq_get h]

/-- Witness for `message_iteration_order` at index 0 of the example message. -/
theorem message_iteration_order_witness :
    0 < (msgValues exampleBusMessage).length ∧
      getItemInt exampleBusMessage 0 =
        .ok ((msgValues exampleBusMessage).get ⟨0, by decide⟩) :=
  ⟨by decide, ((message_iteration_order exampleBusMessage).2.2 0 (by decide))⟩

/--
Claim C10: assigning `m[k] = v` for a key that is neither a declared field
nor already present in the extra data raises `KeyError` (and, the assignment
being rejected before any mutation, leaves the message unchanged — the
embedding is a pure function returning the error); conversely every
successful assignment goes through a declared field or a pre-existing extra
key.
-/
theorem setitem_rejects_unknown_keys (m : PyMessage) (k : String) (v : Value) :
    (k ∉ fieldNames m → k ∉ m.extra.map Prod.fst → setItem m k v = .error "KeyError") ∧
      (∀ m', setItem m k v = .ok m' → k ∈ fieldNames m ∨ k ∈ m.extra.map Prod.fst) := by
  constructor
  · intro h1 h2
    simp [setItem, h1, h2]
  · intro m' h
    by_cases h1 : k ∈ fieldNames m
    · exact Or.inl h1
    by_cases h2 : k ∈ m.extra.map Prod.fst
    · exact Or.inr h2
    · simp [setItem, h1, h2] at h

/-- Witness for `setitem_rejects_unknown_keys` on a fresh key. -/
theorem setitem_rejects_unknown_keys_witness :
    "bogus" ∉ fieldNames (parseAs envelopeDecl [("event", Value.vStr "e")]) ∧
      "bogus" ∉ (parseAs envelopeDecl [("event", Value.vStr "e")]).extra.map Prod.fst ∧
      setItem (parseAs envelopeDecl [("event", Value.vStr "e")]) "bogus" Value.vNull =
        .error "KeyError" :=
  ⟨by decide, by decide,
    (setitem_rejects_unknown_keys (parseAs envelopeDecl [("event", Value.vStr "e")])
      "bogus" Value.vNull).1 (by decide) (by decide)⟩

/-!
## Parsing into the weighted variant union, and serialization to the stream

`messages/__init__.py: parse` wraps a payload and types it as the
weight-ordered union of registered variants with the base envelope as
terminal fallback; the first variant that validates wins.  Validation of the
variants in this repository reduces to: every required field present and
non-null, and a literal-typed `event` matching the payload's event (or the
field absent, so its default applies).  `Message.send`
(`messages/base.py`) raises unless an application name and instance are
available, stamps a header when none is set, and flattens the extra data
plus every non-`None` declared field into the wire payload.  Wire values are
byte/JSON encoded and re-decoded by `decode_stream_message` before being
parsed again; that coercion changes value representations but no keys, so
the embedding keeps values as they are.
-/

/-- Whether a value is Python `None`. -/
def isVNull : Value → Bool
  | .vNull => true
  | _ => false

/-- The `value in (None, "")` test used by `Message.send`. -/
def isNoneOrEmptyStr : Value → Bool
  | .vNull => true
  | .vStr s => s = ""
  | _ => false

/-- The `argument in ("", None)` test used by `Message.send`. -/
def argMissing : Option String → Bool
  | none => true
  | some s => s = ""

/--
A registered message variant: its declared fields with their missing-key
defaults, the names of its required fields, and the value of its `event`
field when that field is typed as a literal.
-/
structure MessageClass where
  declared : List (String × Value)
  required : List String
  eventLiteral : Option String

/--
Whether a payload validates as an instance of a variant: all required fields
present and non-null, and a literal `event` matching the payload's event
value (an absent `event` key takes the literal default and validates).
-/
def validates (C : MessageClass) (p : List (String × Value)) : Bool :=
  (C.required.all fun f =>
    match p.lookup f with
    | some v => !isVNull v
    | none => false) &&
  (match C.eventLiteral with
   | none => true
   | some lit =>
     match p.lookup "event" with
     | some (Value.vStr s) => s = lit
     | some _ => false
     | none => true)

/--
The variant a payload parses into: the registry is listed in decreasing
final weight with the base envelope last, and the first variant whose
fields validate wins.
-/
def selectClass (registry : List MessageClass) (p : List (String × Value)) :
    Option MessageClass :=
  registry.find? (fun C => validates C p)

/-- `getattr` on a declared field of a message. -/
def getField (m : PyMessage) (f : String) : Value :=
  (m.fields.lookup f).getD Value.vNull

/-- `setattr` on a declared field of a message. -/
def setField (m : PyMessage) (f : String) (v : Value) : PyMessage :=
  { m with fields := m.fields.map (fun kv => if kv.1 = f then (kv.1, v) else kv) }

/--
`Message.send`: raise `ValueError` when no application name or instance is
available on the message or the call; otherwise stamp a header if none is
present, then flatten the extra data followed by every declared field whose
value is not `None` into the wire payload.
-/
def send (m : PyMessage) (appName appInst : Option String) (includeHeader : Bool)
    (headerJson : String) : Except String (List (String × Value)) :=
  if (isNoneOrEmptyStr (getField m "application_name") && argMissing appName) ||
      (isNoneOrEmptyStr (getField m "application_instance") && argMissing appInst) then
    .error "ValueError"
  else
    let m1 := if includeHeader && isVNull (getField m "header") then
        setField m "header" (Value.vStr headerJson)
      else m
    .ok (m1.extra ++ m1.fields.filter (fun kv => !isVNull kv.2))

/-- The keys of a payload that are not declared fields of the given field spec. -/
def extraKeysOf (decl : List (String × Value)) (p : List (String × Value)) : List String :=
  (p.map Prod.fst).filter (fun k => !decide (k ∈ decl.map Prod.fst))

/-- The base `Message` envelope as the terminal fallback of the parse union. -/
def envelopeClass : MessageClass :=
  { declared := envelopeDecl, required := ["event"], eventLiteral := none }

/--
The `TrimMessage` variant (`messages/master.py`): a literal `event` fixed to
trim with default trim, plus five optional fields (`save_output` defaults to
`False`, the rest to `None`).
-/
def trimClass : MessageClass :=
  { declared :=
      [("event", Value.vStr "trim"), ("message_id", Value.vNull), ("header", Value.vNull),
       ("application_name", Value.vNull), ("application_instance", Value.vNull),
       ("response_to", Value.vNull), ("workflow_id", Value.vNull),
       ("count", Value.vNull), ("save_output", Value.vBool false),
       ("output_path", Value.vNull), ("filename", Value.vNull), ("date_format", Value.vNull)]
    required := []
    eventLiteral := some "trim" }

/--
A registry holding the `TrimMessage` variant (whose literal event bonus puts
it first) and the base envelope as terminal fallback.
-/
def exampleRegistry : List MessageClass :=
  [trimClass, envelopeClass]

/-- A trim request payload carrying only envelope keys. -/
def trimPayload : List (String × Value) :=
  [("event", Value.vStr "trim"), ("application_name", Value.vStr "tester"),
   ("application_instance", Value.vStr "01")]

/-- The wire payload produced by serializing the parsed trim request. -/
def trimWirePayload : List (String × Value) :=
  ((send (parseAs trimClass.declared trimPayload) none none true "header-json").toOption).getD []

/--
Claim C7, counterexample: parsing the trim payload selects the
`TrimMessage` variant, and the message obtained by re-parsing its serialized
form has `count` among its `keys()`, although `count` is neither a declared
envelope field name nor one of the payload's extra keys: the round-trip key
set is the union of the *selected variant's* declared fields and the extra
keys, not of the envelope's declared fields and the extra keys.
-/
theorem roundtrip_keys_counterexample :
    selectClass exampleRegistry trimPayload = some trimClass ∧
      send (parseAs trimClass.declared trimPayload) none none true "header-json" =
        .ok trimWirePayload ∧
      selectClass exampleRegistry trimWirePayload = some trimClass ∧
      "count" ∈ msgKeys (parseAs trimClass.declared trimWirePayload) ∧
      "count" ∉ envelopeFields ++ extraKeysOf envelopeDecl trimPayload :=
  ⟨rfl, rfl, rfl, by decide, by decide⟩

lemma parseAs_fieldNames (decl p : List (String × Value)) :
    fieldNames (parseAs decl p) = decl.map Prod.fst := by
  simp [parseAs, fieldNames, List.map_map, Function.comp]

lemma setField_extra (m : PyMessage) (f : String) (v : Value) :
    (setField m f v).extra = m.extra := rfl

lemma setField_fieldNames (m : PyMessage) (f : String) (v : Value) :
    fieldNames (setField m f v) = fieldNames m := by
  simp only [setField, fieldNames, List.map_map]
  congr 1
  funext kv
  by_cases h : kv.1 = f <;> simp [h]

lemma filter_notmem_idem (F : List String) (l : List String) :
    (l.filter (fun k => !decide (k ∈ F))).filter (fun k => !decide (k ∈ F)) =
      l.filter (fun k => !decide (k ∈ F)) := by
  rw [List.filter_filter]
  congr 1
  funext k
  by_cases h : k ∈ F <;> simp [h]

/--
Claim C7, amended: for every payload `p`, when parsing `p` and parsing its
serialized form resolve to the same registered variant `C`, the round-trip
message's `keys()` equal the union of `C`'s declared field names and `p`'s
extra keys (the keys of `p` not declared by `C`), the key set being compared
modulo order and the wire-level value coercions.  The original claim holds
in this form with the selected variant's declared fields in place of the
envelope's.
-/
theorem roundtrip_preserves_keys
    (registry : List MessageClass) (C : MessageClass)
    (p p' : List (String × Value)) (appName appInst : Option String)
    (includeHeader : Bool) (hdr : String)
    (_h1 : selectClass registry p = some C)
    (h2 : send (parseAs C.declared p) appName appInst includeHeader hdr = .ok p')
    (_h3 : selectClass registry p' = some C) :
    (msgKeys (parseAs C.declared p')).toFinset =
      (C.declared.map Prod.fst).toFinset ∪ (extraKeysOf C.declared p).toFinset := by
  simp only [send] at h2
  split at h2
  · exact absurd h2 (by simp)
  rw [Except.ok.injEq] at h2
  set m1 := if includeHeader && isVNull (getField (parseAs C.declared p) "header") then
      setField (parseAs C.declared p) "header" (Value.vStr hdr)
    else parseAs C.declared p with hm1
  have hextra : m1.extra = p.filter (fun kv => !decide (kv.1 ∈ C.declared.map Prod.fst)) := by
    rw [hm1]
    split
    · rw [setField_extra]
      simp [parseAs]
    · simp [parseAs]
  have hfields : fieldNames m1 = C.declared.map Prod.fst := by
    rw [hm1]
    split
    · rw [setField_fieldNames, parseAs_fieldNames]
    · rw [parseAs_fieldNames]
  have hkeys : msgKeys (parseAs C.declared p') =
      extraKeysOf C.declared p ++ C.declared.map Prod.fst := by
    rw [msgKeys, parseAs_fieldNames]
    congr 1
    have hpe : (parseAs C.declared p').extra =
        p'.filter (fun kv => !decide (kv.1 ∈ C.declared.map Prod.fst)) := by
      simp [parseAs]
    rw [hpe, map_fst_filter_key]
    simp only [decide_not]
    rw [filter_notmem_idem, ← h2]
    rw [List.map_append, List.filter_append]
    have hB : ((m1.fields.filter (fun kv => !isVNull kv.2)).map Prod.fst).filter
        (fun k => !decide (k ∈ C.declared.map Prod.fst)) = [] := by
      rw [List.filter_eq_nil_iff]
      intro k hk
      have hk' : k ∈ fieldNames m1 := by
        rcases List.mem_map.mp hk with ⟨kv, hkv, hkeq⟩
        exact hkeq ▸ List.mem_map_of_mem Prod.fst (List.mem_of_mem_filter hkv)
      rw [hfields] at hk'
      simp [hk']
    rw [hB, List.append_nil, hextra, map_fst_filter_key, filter_notmem_idem]
    rfl
  rw [hkeys, List.toFinset_append, Finset.union_comm]

/-- Witness for `roundtrip_preserves_keys` at the trim round trip. -/
theorem roundtrip_preserves_keys_witness :
    (msgKeys (parseAs trimClass.declared trimWirePayload)).toFinset =
      (trimClass.declared.map Prod.fst).toFinset ∪
        (extraKeysOf trimClass.declared trimPayload).toFinset :=
  roundtrip_preserves_keys exampleRegistry trimClass trimPayload trimWirePayload
    none none true "header-json" rfl rfl rfl

/-!
## The weighted variant registry

`WeightedModel.get_weight` (`messages/base.py`) computes a raw specificity
weight: the length of the class's method resolution order plus one per
required field.  Its two refinements are both unreachable in the source:
the recursion into required sub-model fields tests
`isinstance(field.type_, WeightedModel)` on a class object, which is never
an *instance* of `WeightedModel`; and the `EVENT_LITERAL_ADJUSTER` bonus of
100 for a literal `event` lives in a `@classmethod` that the collection at
`base.py:336` never finds, because a bound classmethod fails its
`inspect.isfunction` predicate and `_extra_weight_calculations` is empty
throughout the repository.  `update_message_ranker`
(`messages/__init__.py`) then assigns each registered class the sum of the
raw weights of itself and of every registered class it subclasses — the
propagation runs along the *subclass* relation, not along
required-field-set inclusion.  Abstract intermediate classes (such as
`ExampleMessage` in `messages/examples.py`) lengthen a variant's mro
without being registered themselves.
-/

/--
A registered concrete `Message` subclass as the weight computation sees it:
an identity, the identities in its method resolution order (itself
included, abstract intermediates too), and its required field names.
-/
structure MClass where
  id : Nat
  mro : List Nat
  required : Finset String
deriving DecidableEq

/--
`WeightedModel.get_weight` as it actually computes: mro depth plus one per
required field.  (No extra weight calculation is ever collected and the
sub-model recursion branch is dead, see the section comment, so nothing
else contributes.)
-/
def getWeight (c : MClass) : Nat :=
  c.mro.length + c.required.card

/--
The final rank of a registered class after `update_message_ranker`: the sum
of the raw weights of itself and of every registered class appearing in its
method resolution order.
-/
def finalWeight (reg : Finset MClass) (c : MClass) : Nat :=
  ∑ k ∈ reg.filter (fun k => k.id ∈ c.mro), getWeight k

/-- A variant with two required fields subclassing the base `Message` (mro id 100) directly. -/
def valueVariant : MClass :=
  { id := 0, mro := [0, 100], required := {"event", "example_body_value"} }

/--
A variant with one required field sitting below two abstract, unregistered
intermediate classes (mro ids 50 and 51), like a variant derived from the
abstract `ExampleMessage`.
-/
def deepVariant : MClass :=
  { id := 1, mro := [1, 50, 51, 100], required := {"event"} }

/-- A registry holding the two example variants. -/
def exampleWeightRegistry : Finset MClass :=
  {valueVariant, deepVariant}

/--
Claim C3, counterexample: a variant whose required-field set is a strict
superset of another's can end up with a strictly *smaller* final weight.
`valueVariant` requires a strict superset of `deepVariant`'s fields, but
`deepVariant`'s two extra mro entries give it raw (and final) weight 5
against 4 — mro depth counts exactly like required fields — and the
ranker's propagation (which follows the subclass relation, not field-set
inclusion) does not repair the order for these unrelated classes.
-/
theorem weight_superset_counterexample :
    valueVariant ∈ exampleWeightRegistry ∧ deepVariant ∈ exampleWeightRegistry ∧
      deepVariant.required ⊂ valueVariant.required ∧
      finalWeight exampleWeightRegistry valueVariant = 4 ∧
      finalWeight exampleWeightRegistry deepVariant = 5 ∧
      ¬finalWeight exampleWeightRegistry deepVariant <
          finalWeight exampleWeightRegistry valueVariant := by
  decide

/--
Claim C3, amended: the monotonicity the registry actually guarantees runs
along the subclass relation.  If registered variant `A` strictly subclasses
`B` (`B` is in `A`'s mro, `A` is not in `B`'s, and `A`'s mro contains every
entry of `B`'s, as Python's linearization guarantees), then `A`'s final
weight strictly exceeds `B`'s.
-/
theorem weight_subclass_monotone (reg : Finset MClass) (A B : MClass)
    (hA : A ∈ reg)
    (hsub : ∀ x ∈ B.mro, x ∈ A.mro)
    (hself : A.id ∈ A.mro)
    (hstrict : A.id ∉ B.mro) :
    finalWeight reg B < finalWeight reg A := by
  have hss : reg.filter (fun k => k.id ∈ B.mro) ⊆ reg.filter (fun k => k.id ∈ A.mro) := by
    intro k hk
    rw [Finset.mem_filter] at hk ⊢
    exact ⟨hk.1, hsub _ hk.2⟩
  refine Finset.sum_lt_sum_of_subset hss (i := A) ?_ ?_ ?_ ?_
  · exact Finset.mem_filter.mpr ⟨hA, hself⟩
  · intro hmem
    exact hstrict (Finset.mem_filter.mp hmem).2
  · have : 0 < A.mro.length := List.length_pos.mpr (List.ne_nil_of_mem hself)
    unfold getWeight
    omega
  · intro j _ _
    exact Nat.zero_le _

/-- A strict subclass of `deepVariant` adding one required field. -/
def childVariant : MClass :=
  { id := 2, mro := [2, 1, 50, 51, 100], required := {"event", "stream"} }

/-- Witness for `weight_subclass_monotone` on a subclass of the deep variant. -/
theorem weight_subclass_monotone_witness :
    finalWeight {deepVariant, childVariant} deepVariant <
      finalWeight {deepVariant, childVariant} childVariant :=
  weight_subclass_monotone {deepVariant, childVariant} childVariant deepVariant
    (by decide) (by decide) (by decide) (by decide)

/-!
## The re-entrant scope-tracking lock

`LuaSafeLock` (`utilities/communication.py`) records a stack trace at the
outermost `acquire` and compares it against the stack trace observed at
`release`.  `acquire` on a lock already held and owned returns `True`
immediately.  `release` raises when no acquisition stack is recorded;
unlocks when the traces match; logs a warning *and still unlocks* when the
release happens in a caller of the acquiring scope (the recorded stack
properly extends the current trace); silently does nothing when the release
happens in a callee of the acquiring scope (the current trace properly
extends the recorded stack); and unlocks unconditionally for any other
trace.  Stack frames are embedded as opaque numbers.
-/

/-- The client-side state of one `LuaSafeLock` instance. -/
structure LockState where
  held : Bool
  ownedByUs : Bool
  stack : Option (List Nat)
deriving DecidableEq

/--
`LuaSafeLock.acquire`: a re-acquire of a lock this instance already holds
returns `True` without touching the server; otherwise the current trace is
recorded and the blocking acquire of the base class runs.  The result is
the new state, the returned boolean, and whether the (blocking) base-class
acquire was invoked.
-/
def lockAcquire (st : LockState) (trace : List Nat) : LockState × Bool × Bool :=
  if st.held && st.ownedByUs then (st, true, false)
  else ({ held := true, ownedByUs := true, stack := some trace }, true, true)

/-- What a call to `LuaSafeLock.release` did. -/
inductive ReleaseResult where
  | raised
  | unlocked
  | warnedUnlocked
  | noop
deriving DecidableEq

/-- The state after `do_release`: key deleted, recorded stack cleared. -/
def unlockedState : LockState :=
  { held := false, ownedByUs := false, stack := none }

/--
`LuaSafeLock.release`: compare the current trace with the recorded
acquisition stack and raise, unlock, warn-and-unlock, or do nothing, exactly
as the source's branch chain does.
-/
def lockRelease (st : LockState) (trace : List Nat) : ReleaseResult × LockState :=
  match st.stack with
  | none => (.raised, st)
  | some stk =>
    if stk = [] then (.raised, st)
    else if trace = stk then (.unlocked, unlockedState)
    else if trace.length < stk.length && stk.take trace.length = trace then
      (.warnedUnlocked, unlockedState)
    else if trace.take stk.length = stk then (.noop, st)
    else (.unlocked, unlockedState)

/-- A lock state acquired at the two-frame scope 0,1. -/
def heldLockState : LockState :=
  { held := true, ownedByUs := true, stack := some [0, 1] }

/--
Claim C6, counterexample: a release whose call scope does not match the
outermost acquire is *not* always a no-op that leaves the lock held.
Releasing `heldLockState` (acquired at scope 0,1) from the unrelated scope 2
falls through every comparison branch and unconditionally unlocks: the
result is `unlocked`, not a warned no-op, and the lock is no longer held.
-/
theorem lock_release_mismatch_counterexample :
    ([2] : List Nat) ≠ [0, 1] ∧
      lockRelease heldLockState [2] = (.unlocked, unlockedState) ∧
      (lockRelease heldLockState [2]).2.held = false := by
  decide

/--
Claim C6, amended: `acquire` on an already-held, owned lock returns
immediately without a blocking base acquire, and `release` behaves as
follows against the recorded acquire scope `stk`: an exactly matching trace
unlocks; a trace that strictly extends `stk` (a callee of the acquiring
scope) is a no-op that leaves the state unchanged; a trace that `stk`
strictly extends (a caller of the acquiring scope) logs a warning but still
unlocks; and any other trace unlocks unconditionally.  Only the
strictly-deeper mismatch is a no-op; other mismatched releases drop the
lock.
-/
theorem lock_scope_behaviour (st : LockState) (stk trace : List Nat)
    (hstk : st.stack = some stk) (hne : stk ≠ []) :
    (lockAcquire { st with held := true, ownedByUs := true } trace =
        ({ st with held := true, ownedByUs := true }, true, false)) ∧
      (trace = stk → lockRelease st trace = (.unlocked, unlockedState)) ∧
      (trace ≠ stk → trace.take stk.length = stk →
        lockRelease st trace = (.noop, st)) ∧
      (trace.length < stk.length → stk.take trace.length = trace →
        lockRelease st trace = (.warnedUnlocked, unlockedState)) ∧
      (trace ≠ stk → trace.take stk.length ≠ stk →
        ¬(trace.length < stk.length ∧ stk.take trace.length = trace) →
        lockRelease st trace = (.unlocked, unlockedState)) := by
  refine ⟨?_, ?_, ?_, ?_, ?_⟩
  · simp [lockAcquire]
  · intro h
    simp [lockRelease, hstk, hne, h]
  · intro h1 h2
    have h3 : ¬(trace.length < stk.length ∧ stk.take trace.length = trace) := by
      rintro ⟨hlt, _⟩
      have := congrArg List.length h2
      simp [List.length_take] at this
      omega
    simp only [lockRelease, hstk]
    rw [if_neg (by simpa using hne), if_neg h1]
    rw [if_neg (by simpa using h3), if_pos h2]
  · intro h1 h2
    have hne2 : trace ≠ stk := by
      intro h
      subst h
      omega
    simp only [lockRelease, hstk]
    rw [if_neg (by simpa using hne), if_neg hne2]
    rw [if_pos (by simpa using And.intro h1 h2)]
  · intro h1 h2 h3
    simp only [lockRelease, hstk]
    rw [if_neg (by simpa using hne), if_neg h1]
    rw [if_neg (by simpa using h3), if_neg h2]

/-- Witness for `lock_scope_behaviour`: a nested (strictly deeper) release is a no-op. -/
theorem lock_scope_behaviour_witness :
    lockRelease heldLockState [0, 1, 5] = (.noop, heldLockState) :=
  (lock_scope_behaviour heldLockState [0, 1] [0, 1, 5] rfl (by decide)).2.2.1
    (by decide) (by decide)

/-!
## The consumer read loop

`read_from_stream` (`utilities/communication.py`) loops: first
`get_dead_messages` — which drains the group inbox via
`get_messages_from_inbox` and only if that yields nothing reclaims
messages idle at least the threshold via `get_idle_messages` — and returns
whatever was claimed; otherwise a blocking `xreadgroup` with cursor `>` for
fresh messages; an empty fresh read sleeps one second and loops.  The store
is embedded as the per-iteration view the three store calls would observe
(inbox pending entries, group pending entries with their idle times, and
the fresh batch); the loop's unbounded `while True` is embedded by
recursion over the list of iteration views, `none` standing for a loop
still running when the views run out.
-/

/-- What the store returns to one iteration of the read loop. -/
structure StoreView where
  inboxPending : List String
  groupPending : List (String × Nat)
  fresh : List String
deriving DecidableEq

/--
`get_messages_from_inbox`: list the ids pending for the inbox consumer;
when there are none return the empty mapping, otherwise claim exactly those
ids to this consumer (`min_idle_time=0`) and return them.
-/
def getMessagesFromInbox (v : StoreView) : List String :=
  if v.inboxPending = [] then [] else v.inboxPending

/--
`get_idle_messages`: list the ids pending anywhere in the group whose idle
time meets the threshold, drop the excluded ids, and claim the remainder;
when nothing qualifies return the empty mapping.
-/
def getIdleMessages (v : StoreView) (idleTime : Nat) (exclude : List String) : List String :=
  let ids := (v.groupPending.filter
    (fun e => idleTime ≤ e.2 && !decide (e.1 ∈ exclude))).map Prod.fst
  if ids = [] then [] else ids

/-- `get_dead_messages`: the inbox drain first, the idle reclaim only if it was empty. -/
def getDeadMessages (v : StoreView) (idleTime : Nat) : List String :=
  let inboxMessages := getMessagesFromInbox v
  if inboxMessages ≠ [] then inboxMessages
  else getIdleMessages v idleTime []

/-- The observable store interactions of the read loop. -/
inductive ReadEvent where
  | drainInbox (claimed : List String)
  | reclaimIdle (claimed : List String)
  | freshRead (got : List String)
  | sleepOneSecond
deriving DecidableEq

/--
`read_from_stream`: per iteration, dead messages (inbox, then idle) are
returned when any were claimed; otherwise a blocking fresh group-read with
cursor `>`; an empty fresh batch sleeps one second and loops.  Returns the
batch handed to the caller together with the trace of store interactions.
-/
def readFromStream (idleTime : Nat) : List StoreView → Option (List String) × List ReadEvent
  | [] => (none, [])
  | v :: rest =>
    let inboxMessages := getMessagesFromInbox v
    let deadEvents :=
      if inboxMessages ≠ [] then [ReadEvent.drainInbox inboxMessages]
      else [ReadEvent.drainInbox [], ReadEvent.reclaimIdle (getIdleMessages v idleTime [])]
    let dead := getDeadMessages v idleTime
    if dead ≠ [] then (some dead, deadEvents)
    else if v.fresh ≠ [] then (some v.fresh, deadEvents ++ [.freshRead v.fresh])
    else
      ((readFromStream idleTime rest).1,
        deadEvents ++ [.freshRead [], .sleepOneSecond] ++ (readFromStream idleTime rest).2)

/--
Claim C2: inbox-claimed messages are returned first; only when the inbox
yields nothing are sufficiently idle messages reclaimed and returned; only
when neither yields anything is the blocking fresh group-read issued, whose
empty result causes a one-second sleep before the next iteration; and a
returned batch is never empty.
-/
theorem read_from_stream_spec (idleTime : Nat) (v : StoreView) (rest : List StoreView) :
    (getMessagesFromInbox v ≠ [] →
      readFromStream idleTime (v :: rest) =
        (some v.inboxPending, [.drainInbox v.inboxPending])) ∧
      (getMessagesFromInbox v = [] → getIdleMessages v idleTime [] ≠ [] →
        readFromStream idleTime (v :: rest) =
          (some (getIdleMessages v idleTime []),
            [.drainInbox [], .reclaimIdle (getIdleMessages v idleTime [])])) ∧
      (getMessagesFromInbox v = [] → getIdleMessages v idleTime [] = [] → v.fresh ≠ [] →
        readFromStream idleTime (v :: rest) =
          (some v.fresh, [.drainInbox [], .reclaimIdle [], .freshRead v.fresh])) ∧
      (getMessagesFromInbox v = [] → getIdleMessages v idleTime [] = [] → v.fresh = [] →
        readFromStream idleTime (v :: rest) =
          ((readFromStream idleTime rest).1,
            [.drainInbox [], .reclaimIdle [], .freshRead [], .sleepOneSecond] ++
              (readFromStream idleTime rest).2)) ∧
      ∀ views ms, (readFromStream idleTime views).1 = some ms → ms ≠ [] := by
  refine ⟨?_, ?_, ?_, ?_, ?_⟩
  · intro h
    have hin : v.inboxPending ≠ [] := by
      intro hq
      rw [getMessagesFromInbox, if_pos hq] at h
      exact h rfl
    have hg : getMessagesFromInbox v = v.inboxPending := by
      rw [getMessagesFromInbox, if_neg hin]
    have hd : getDeadMessages v idleTime = v.inboxPending := by
      rw [getDeadMessages]
      simp only [hg]
      rw [if_pos (by simpa using hin)]
    simp only [readFromStream, hg, hd]
    simp [hin]
  · intro h hi
    have hd : getDeadMessages v idleTime = getIdleMessages v idleTime [] := by
      rw [getDeadMessages]
      simp only [h]
      rw [if_neg (by simp)]
    simp only [readFromStream, h, hd]
    simp [hi]
  · intro h hi hf
    have hd : getDeadMessages v idleTime = [] := by
      rw [getDeadMessages]
      simp only [h, hi]
      rw [if_neg (by simp)]
    simp only [readFromStream, h, hd, hi]
    simp [hf]
  · intro h hi hf
    have hd : getDeadMessages v idleTime = [] := by
      rw [getDeadMessages]
      simp only [h, hi]
      rw [if_neg (by simp)]
    simp only [readFromStream, h, hd, hi, hf]
    simp
  · intro views
    induction views with
    | nil =>
      intro ms h
      simp [readFromStream] at h
    | cons w ws ih =>
      intro ms h
      simp only [readFromStream] at h
      by_cases hd : getDeadMessages w idleTime ≠ []
      · rw [if_pos (by simpa using hd)] at h
        rw [Option.some.injEq] at h
        exact h ▸ hd
      · rw [if_neg (by simpa using hd)] at h
        by_cases hf : w.fresh ≠ []
        · rw [if_pos (by simpa using hf)] at h
          rw [Option.some.injEq] at h
          exact h ▸ hf
        · rw [if_neg (by simpa using hf)] at h
          exact ih ms h

/-- A store view whose inbox holds one pending message. -/
def inboxOnlyView : StoreView :=
  { inboxPending := ["m1"], groupPending := [], fresh := ["m2"] }

/-- Witness for `read_from_stream_spec`: the inbox message wins over the fresh one. -/
theorem read_from_stream_spec_witness :
    readFromStream 600000 [inboxOnlyView] = (some ["m1"], [.drainInbox ["m1"]]) :=
  (read_from_stream_spec 600000 inboxOnlyView []).1 (by decide)

/-!
## Handler-group dispatch

`HandlerReader.process_message` (`streams/handlers.py`) invokes its single
handler when the decoded payload's `event` equals the configured event;
success marks the message processed, an exception releases it back to the
inbox via `give_up_message`; a non-matching event marks the message
processed without invoking anything.  Marking goes through
`mark_message_as_complete` (`utilities/communication.py`), which flips this
consumer's flag in the per-message completion hash, then acknowledges and
deletes the record when no flag is left unset, and otherwise returns the
message to the inbox.
-/

/-- `hset` on a string-to-bool hash: overwrite or append the entry. -/
def setHashEntry (hash : List (String × Bool)) (k : String) (b : Bool) :
    List (String × Bool) :=
  if k ∈ hash.map Prod.fst then
    hash.map (fun kv => if kv.1 = k then (kv.1, b) else kv)
  else hash ++ [(k, b)]

/--
`mark_message_as_complete`: set this consumer's completion flag to true;
when no entry of the hash remains false, delete the record and `xack` the
message (result `true`); otherwise return the message to the inbox
(result `false`).
-/
def markMessageAsComplete (hash : List (String × Bool)) (consumerName : String) : Bool :=
  let updated := setHashEntry hash consumerName true
  (updated.filter (fun kv => !kv.2)).length = 0

/-- The `event_name == self.configuration.event` comparison of the decoded payload event. -/
def eventMatches (ev : Option Value) (configEvent : String) : Bool :=
  match ev with
  | some (Value.vStr s) => s = configEvent
  | _ => false

/-- What one handler-group dispatch did with its message. -/
structure HandlerDispatch where
  invoked : Bool
  markCalled : Bool
  ackedByMark : Bool
  gaveUp : Bool
  result : Option Value

/--
`HandlerReader.process_message`: invoke the handler only on a matching
event; mark the message processed on success or on a non-matching event;
release it to the inbox (`give_up_message`) when the handler raised.
-/
def handlerProcessMessage (configEvent : String) (payload : List (String × Value))
    (handlerOutcome : Except String Value) (hash : List (String × Bool))
    (consumerName : String) : HandlerDispatch :=
  if eventMatches (payload.lookup "event") configEvent then
    match handlerOutcome with
    | .ok r =>
      { invoked := true, markCalled := true,
        ackedByMark := markMessageAsComplete hash consumerName,
        gaveUp := false, result := some r }
    | .error _ =>
      { invoked := true, markCalled := false, ackedByMark := false,
        gaveUp := true, result := none }
  else
    { invoked := false, markCalled := true,
      ackedByMark := markMessageAsComplete hash consumerName,
      gaveUp := false, result := none }

/--
Claim C4: in a handler-group dispatch, a matching event with a succeeding
handler marks the message complete (and does not release it); a matching
event with a raising handler releases the message to the inbox and does not
mark it; a non-matching event marks the message complete without invoking
the handler.
-/
theorem handler_group_dispatch (configEvent : String) (payload : List (String × Value))
    (outcome : Except String Value) (hash : List (String × Bool)) (consumerName : String) :
    (eventMatches (payload.lookup "event") configEvent = true →
      (∀ r, outcome = .ok r →
        (handlerProcessMessage configEvent payload outcome hash consumerName).invoked = true ∧
          (handlerProcessMessage configEvent payload outcome hash consumerName).markCalled = true ∧
          (handlerProcessMessage configEvent payload outcome hash consumerName).gaveUp = false) ∧
      ∀ e, outcome = .error e →
        (handlerProcessMessage configEvent payload outcome hash consumerName).invoked = true ∧
          (handlerProcessMessage configEvent payload outcome hash consumerName).markCalled = false ∧
          (handlerProcessMessage configEvent payload outcome hash consumerName).gaveUp = true) ∧
      (eventMatches (payload.lookup "event") configEvent = false →
        (handlerProcessMessage configEvent payload outcome hash consumerName).invoked = false ∧
          (handlerProcessMessage configEvent payload outcome hash consumerName).markCalled = true ∧
          (handlerProcessMessage configEvent payload outcome hash consumerName).gaveUp = false) := by
  constructor
  · intro hm
    constructor
    · intro r hr
      subst hr
      simp [handlerProcessMessage, hm]
    · intro e he
      subst he
      simp [handlerProcessMessage, hm]
  · intro hm
    simp [handlerProcessMessage, hm]

/-- Witness for `handler_group_dispatch`: a matching event with a succeeding echo handler. -/
theorem handler_group_dispatch_witness :
    (handlerProcessMessage "generic" [("event", Value.vStr "generic")]
        (.ok (Value.vStr "ok")) [] "worker").invoked = true ∧
      (handlerProcessMessage "generic" [("event", Value.vStr "generic")]
        (.ok (Value.vStr "ok")) [] "worker").markCalled = true ∧
      (handlerProcessMessage "generic" [("event", Value.vStr "generic")]
        (.ok (Value.vStr "ok")) [] "worker").gaveUp = false :=
  ((handler_group_dispatch "generic" [("event", Value.vStr "generic")]
      (.ok (Value.vStr "ok")) [] "worker").1 (by decide)).1 (Value.vStr "ok") rfl

/-!
## The close control event

`close_streams` (`handlers/master.py`) compares the message's
`application_name` and `application_instance` against the receiving
listener's identity; only when both match *and* the listener may make
executive decisions does it call `bus.stop_polling()`; a matching message
without that authority logs an error, a non-matching one is logged when
verbose and otherwise ignored.
-/

/-- The identity and authority of the listener receiving a control message. -/
structure ListenerIdentity where
  applicationName : String
  instanceIdentifier : String
  canMakeExecutiveDecisions : Bool
  verbose : Bool

/-- What the `close_streams` handler did. -/
inductive CloseOutcome where
  | stoppedPolling
  | loggedNoAuthority
  | loggedOtherInstance
  | ignored
deriving DecidableEq

/-- `close_streams`: stop polling only for a matching, authorized listener. -/
def closeStreams (bus : ListenerIdentity) (msgAppName msgAppInstance : String) :
    CloseOutcome :=
  if (bus.applicationName = msgAppName ∧ bus.instanceIdentifier = msgAppInstance) ∧
      bus.canMakeExecutiveDecisions = true then
    .stoppedPolling
  else if bus.applicationName = msgAppName ∧ bus.instanceIdentifier = msgAppInstance then
    .loggedNoAuthority
  else if bus.verbose then .loggedOtherInstance
  else .ignored

lemma closeStreams_stop_iff (bus : ListenerIdentity) (an ai : String) :
    closeStreams bus an ai = .stoppedPolling ↔
      bus.applicationName = an ∧ bus.instanceIdentifier = ai ∧
        bus.canMakeExecutiveDecisions = true := by
  constructor
  · intro h
    by_cases hc : (bus.applicationName = an ∧ bus.instanceIdentifier = ai) ∧
        bus.canMakeExecutiveDecisions = true
    · exact ⟨hc.1.1, hc.1.2, hc.2⟩
    · exfalso
      rw [closeStreams, if_neg hc] at h
      split at h
      · exact CloseOutcome.noConfusion h
      split at h
      · exact CloseOutcome.noConfusion h
      · exact CloseOutcome.noConfusion h
  · rintro ⟨h1, h2, h3⟩
    rw [closeStreams, if_pos ⟨⟨h1, h2⟩, h3⟩]

/--
Claim C5: a `close_streams` message stops the local polling loop if and only
if its `application_name` and `application_instance` both equal the local
identity and the listener may make executive decisions; in particular a
mismatch in either identity field never stops the local loop.
-/
theorem close_streams_identity_gate (bus : ListenerIdentity) (an ai : String) :
    (closeStreams bus an ai = .stoppedPolling ↔
      bus.applicationName = an ∧ bus.instanceIdentifier = ai ∧
        bus.canMakeExecutiveDecisions = true) ∧
      (bus.applicationName ≠ an ∨ bus.instanceIdentifier ≠ ai →
        closeStreams bus an ai ≠ .stoppedPolling) := by
  refine ⟨closeStreams_stop_iff bus an ai, ?_⟩
  intro hmis h
  rcases hmis with hm | hm
  · exact hm (((closeStreams_stop_iff bus an ai).mp h).1)
  · exact hm (((closeStreams_stop_iff bus an ai).mp h).2.1)

/-- Witness for `close_streams_identity_gate`: a mismatched instance is ignored. -/
theorem close_streams_identity_gate_witness :
    closeStreams
        { applicationName := "svc", instanceIdentifier := "a1",
          canMakeExecutiveDecisions := true, verbose := false } "svc" "b2" ≠
      .stoppedPolling :=
  (close_streams_identity_gate
      { applicationName := "svc", instanceIdentifier := "a1",
        canMakeExecutiveDecisions := true, verbose := false } "svc" "b2").2
    (Or.inr (by decide))

/-!
## Bus-listener dispatch

`EventBus.process_message` (`streams/bus.py`) looks up the configured
handlers for the payload's `event`, invokes each one, logs failures, and
passes each successful result to `process_response`.  It performs *no*
store interaction beyond the handler calls themselves: it never
acknowledges the message, never releases it to the inbox, and never reads
or writes the `<message_id>::<group_name>::progress` key.  The helper
`set_and_retrieve_required_handlers` defined in the same module — meant to
record each handler in the progress key and retain those with fewer than
`MAX_HANDLER_ATTEMPTS` attempts — has no caller anywhere in the
repository, and is itself broken dead code: `pipeline.execute()` returns a
list, on which `bus.py:45` immediately calls `.items()`, so it would raise
`AttributeError` before any filtering.  It is therefore not embedded; the
dispatch below is what the listener runtime actually runs.
-/

/-- Python truthiness of a decoded value (the `if event_name:` test). -/
def pyTruthy : Value → Bool
  | .vStr s => s ≠ ""
  | .vBytes s => s ≠ ""
  | .vInt n => n ≠ 0
  | .vFloat q => q ≠ 0
  | .vBool b => b
  | .vNaN => true
  | .vInf => true
  | .vNegInf => true
  | .vNull => false
  | .vList xs => !xs.isEmpty
  | .vDict es => !es.isEmpty

/-- The observable actions of one `EventBus.process_message` dispatch. -/
inductive BusAction where
  | invokeHandler (id : String)
  | logHandlerError (id : String)
  | processResponse (id : String)
  | logNoHandlers
  | logNoEvent
  | ackToGroup
  | releaseToInbox
  | progressKeyWrite
deriving DecidableEq

/-- `configuration.get_handlers`: the handler list for a string event, else empty. -/
def getHandlers (handlers : List (String × List String)) : Value → List String
  | .vStr s => (handlers.lookup s).getD []
  | _ => []

/-- The `event_name in self.configuration.handlers` test. -/
def eventDefined (handlers : List (String × List String)) : Value → Bool
  | .vStr s => s ∈ handlers.map Prod.fst
  | _ => false

/--
`EventBus.process_message`: with a truthy event, invoke every configured
handler for it — logging a raising handler, passing a produced result to
`process_response` — and warn when the event is configured with an empty
handler list; with no event or a falsy one, only warn.  Handlers are
identified by their designation identifier; `outcomes` gives each handler
call's result or exception.
-/
def busProcessMessage (handlers : List (String × List String))
    (outcomes : String → Except String (Option Value))
    (payload : List (String × Value)) : List BusAction :=
  match payload.lookup "event" with
  | some ev =>
    if pyTruthy ev then
      let hs := getHandlers handlers ev
      let handlerActions := (hs.map (fun h =>
        match outcomes h with
        | .ok _ => [BusAction.invokeHandler h, BusAction.processResponse h]
        | .error _ => [BusAction.invokeHandler h, BusAction.logHandlerError h])).flatten
      handlerActions ++
        (if eventDefined handlers ev ∧ hs = [] then [BusAction.logNoHandlers] else [])
    else [BusAction.logNoEvent]
  | none => [BusAction.logNoEvent]

/-- Actions a bus dispatch can emit; none of them touch ack, release or progress. -/
def busActionBenign : BusAction → Bool
  | .invokeHandler _ => true
  | .logHandlerError _ => true
  | .processResponse _ => true
  | .logNoHandlers => true
  | .logNoEvent => true
  | .ackToGroup => false
  | .releaseToInbox => false
  | .progressKeyWrite => false

lemma busProcessMessage_benign (handlers : List (String × List String))
    (outcomes : String → Except String (Option Value))
    (payload : List (String × Value)) :
    ∀ a ∈ busProcessMessage handlers outcomes payload, busActionBenign a = true := by
  intro a ha
  unfold busProcessMessage at ha
  split at ha
  · split at ha
    · rw [List.mem_append] at ha
      rcases ha with ha | ha
      · rw [List.mem_flatten] at ha
        obtain ⟨l, hl, hal⟩ := ha
        rw [List.mem_map] at hl
        obtain ⟨h, _, hlh⟩ := hl
        subst hlh
        cases ho : outcomes h with
        | ok r =>
          rw [ho] at hal
          simp at hal
          rcases hal with rfl | rfl <;> rfl
        | error e =>
          rw [ho] at hal
          simp at hal
          rcases hal with rfl | rfl <;> rfl
      · split at ha
        · rw [List.mem_singleton] at ha
          subst ha
          rfl
        · exact absurd ha (List.not_mem_nil a)
    · rw [List.mem_singleton] at ha
      subst ha
      rfl
  · rw [List.mem_singleton] at ha
    subst ha
    rfl

/--
Claim C1 is not what the code does: `EventBus.process_message` emits no
acknowledgement, no release and no progress-key write for *any*
configuration, handler outcomes and payload — in particular not for the
failing input of a bus configured with one handler for event e receiving a
message with event e whose handler succeeds, where the claim requires the
message to be acknowledged (all handlers complete).  The dispatch also never
consults `set_and_retrieve_required_handlers`, so no handler-attempt
filtering guards the invocations.
-/
theorem bus_dispatch_never_acks :
    (∀ (handlers : List (String × List String))
        (outcomes : String → Except String (Option Value))
        (payload : List (String × Value)),
      (busProcessMessage handlers outcomes payload).all busActionBenign = true) ∧
      busProcessMessage [("e", ["h1"])] (fun _ => .ok none)
          [("event", Value.vStr "e")] =
        [.invokeHandler "h1", .processResponse "h1"] := by
  constructor
  · intro handlers outcomes payload
    rw [List.all_eq_true]
    exact busProcessMessage_benign handlers outcomes payload
  · rfl

end EventStream
